import Mathlib

/-!
# Verification of the scan orchestration core (`src/cargo-geiger/src/scan/default.rs`)

Shallow embedding of the dependency-graph safety-report builder: the feature
configuration builder, the collection phase (`scan`), the report aggregation
loop (`scan_to_report`), the auxiliary log-file writer (`log_unsafe_functions`
and `suffixed_file_name`), and the output dispatcher (`scan_unsafe`).

External collaborators (the file resolver, the workspace-wide finder, the
dependency-graph enumeration and the table renderer) are parameters of the
embedded functions; components of the repository that are not part of the
orchestration file (the unsafety summary, the orphan-file computation, the
serializer of the report) are modelled from the specification, each marked in
its doc comment.
-/

/-- Package identifier (`cargo_geiger_serde::PackageId`): the fields relevant to
the orchestration file are the displayed `name` and a distinguishing `version`. -/
structure PackageId where
  name : String
  version : String
deriving DecidableEq, Repr

/-- Package descriptor stored in a `ReportEntry` (`cargo_geiger_serde::Package`);
the orchestration file only uses its `id`. -/
structure Package where
  id : PackageId
deriving DecidableEq, Repr

/-- A file path, modelled as its directory components plus the optional final
file-name component (`std::path::Path::file_name`). A path whose last component
is not a normal file name (for example a root directory) has `fileName = none`. -/
structure RsFilePath where
  dir : List String
  fileName : Option String
deriving DecidableEq, Repr

/-- Per-file unsafety detail produced by the external finder for one file
(modelled from the spec: "mapping from file path to per-file unsafe-usage
detail"; the nested per-function detail is the two ordered function lists plus a
scalar count). -/
structure RsFileMetrics where
  declared_unsafe_functions : List String
  contains_unsafe_functions : List String
  unsafe_count : Nat
deriving DecidableEq, Repr

/-- The finder's complete per-file map of detected unsafety across the
workspace, keyed by file path. -/
abbrev GeigerContext := List (RsFilePath × RsFileMetrics)

/-- Per-package metrics delivered by the dependency graph: per-file detail for
the package's own files (modelled from the spec: "per-package metrics from a
dependency graph", consumed as present/absent plus nested per-function detail). -/
structure PackageMetrics where
  file_metrics : List (RsFilePath × RsFileMetrics)
deriving DecidableEq, Repr

/-- Unsafety summary of one report entry (`cargo_geiger_serde::UnsafeInfo` as
used by the orchestration file): the two ordered function lists iterated by
`log_unsafe_functions`, plus a scalar count. -/
structure UnsafeInfo where
  declared_unsafe_functions : List String
  contains_unsafe_functions : List String
  unsafe_count : Nat
deriving DecidableEq, Repr

/-- One entry of the safety report (`cargo_geiger_serde::ReportEntry`). -/
structure ReportEntry where
  package : Package
  unsafety : UnsafeInfo
deriving DecidableEq, Repr

/-- The safety report (`cargo_geiger_serde::SafetyReport`).  `packages` is a
mapping with unique keys (modelled as an association list), the other two
fields are sets (modelled as duplicate-free insertion lists). -/
structure SafetyReport where
  packages : List (PackageId × ReportEntry) := []
  packages_without_metrics : List PackageId := []
  used_but_not_scanned_files : List RsFilePath := []
deriving DecidableEq, Repr

instance : Inhabited SafetyReport := ⟨{}⟩

/-- Keys of an association list. -/
def mapKeys (m : List (PackageId × ReportEntry)) : List PackageId :=
  m.map Prod.fst

/-- Insertion into the `packages` mapping (`HashMap::insert`): an existing
binding of the key is replaced, otherwise the binding is appended. -/
def packagesInsert (m : List (PackageId × ReportEntry)) (k : PackageId)
    (v : ReportEntry) : List (PackageId × ReportEntry) :=
  if m.any (fun kv => kv.1 = k) then
    m.map (fun kv => if kv.1 = k then (k, v) else kv)
  else
    m ++ [(k, v)]

/-- Insertion into a set of package identifiers (`HashSet::insert`). -/
def idsInsert (s : List PackageId) (k : PackageId) : List PackageId :=
  if k ∈ s then s else s ++ [k]

/-- Feature-selection flags (`crate::args::FeaturesArgs`). -/
structure FeaturesArgs where
  all_features : Bool
  features : List String
  no_default_features : Bool
deriving DecidableEq, Repr

/-- Cargo configuration handle; opaque to the orchestration file, which only
passes it through to external constructors. -/
structure Config where
  deriving DecidableEq, Repr

/-- Compile mode (`cargo::core::compiler::CompileMode`); the orchestration file
only ever constructs `Check { test: false }`. -/
inductive CompileMode where
  | check (test : Bool)
deriving DecidableEq, Repr

/-- Compile options (`cargo::ops::CompileOptions`): the fields the
orchestration file reads or writes. -/
structure CompileOptions where
  mode : CompileMode
  features : List String
  all_features : Bool
  no_default_features : Bool
deriving DecidableEq, Repr

/-- External constructor `CompileOptions::new` (cargo crate): produces the
standard options for the given mode, with empty feature selection.  The source
unwraps its result; the external failure is outside this core and the
constructor is modelled as total. -/
def CompileOptions.new (_config : Config) (mode : CompileMode) : CompileOptions :=
  { mode := mode
    features := []
    all_features := false
    no_default_features := false }

/-- Embedding of `build_compile_options` (lines 99-132): builds compile options from the
feature flags, copying the feature list and the two boolean flags verbatim. -/
def build_compile_options (args : FeaturesArgs) (config : Config) :
    CompileOptions :=
  let compile_options := CompileOptions.new config (CompileMode.check false)
  { compile_options with
    features := args.features
    all_features := args.all_features
    no_default_features := args.no_default_features }

/-- Rust's `split_file_at_dot` on a file name: the special file name `..` and
names whose only dot is leading split into (whole name, no extension);
otherwise the name splits at the last dot into stem and extension (the dot
itself belongs to neither part). -/
def rsSplitFileAtDot (file : String) : String × Option String :=
  if file = ".." then (file, none)
  else
    match (file.toList.reverse).findIdx? (fun c => c = '.') with
    | none => (file, none)
    | some j =>
      let i := file.toList.length - 1 - j
      if i = 0 then (file, none)
      else (⟨file.toList.take i⟩, some ⟨file.toList.drop (i + 1)⟩)

/-- Embedding of `Path::file_stem`: the stem part of the file-name component. -/
def rsFileStem (p : RsFilePath) : Option String :=
  p.fileName.map (fun f => (rsSplitFileAtDot f).1)

/-- Embedding of `Path::extension`: the extension part of the file-name component (without
its dot). -/
def rsExtension (p : RsFilePath) : Option String :=
  p.fileName.bind (fun f => (rsSplitFileAtDot f).2)

/-- Embedding of `suffixed_file_name` (lines 50-66): pushes the file stem, then the suffix,
then the extension (via `unwrap_or_default`, the empty string when absent) onto
a fresh name.  The source unwraps the stem; the panic when the path has no
file-name component is modelled as `none`. -/
def suffixed_file_name (path : RsFilePath) (suffix : String) : Option String :=
  match rsFileStem path with
  | none => none
  | some stem =>
    let ext := (rsExtension path).getD ""
    some (stem ++ suffix ++ ext)

example : suffixed_file_name ⟨[], some "report.log"⟩ ".declared"
    = some "report.declaredlog" := by decide

example : suffixed_file_name ⟨[], some "report"⟩ ".declared"
    = some "report.declared" := by decide

example : suffixed_file_name ⟨["a"], none⟩ ".declared" = none := by decide

/-- Error type of the command-line layer (`cargo::CliError`); its content is
irrelevant to the orchestration, a message string suffices. -/
def CliError := String

deriving instance DecidableEq for CliError

/-- Error of the external file resolver (`resolve_rs_file_deps`). -/
def ResolveError := String

deriving instance DecidableEq for ResolveError

/-- Scan mode passed to the finder.  Modelled from the spec: `ScanMode` is
declared in the enclosing module, not in the orchestration file; the spec
distinguishes the "full workspace" mode from a narrower mode. -/
inductive ScanMode where
  | full
  | entryPointsOnly
deriving DecidableEq, Repr

/-- Outcome of the collection phase when it does not produce a snapshot: the
source unwraps the resolver result, so a resolver failure is a panic (modelled
as the fatal `resolutionPanic` outcome, the spec's `ResolutionError`), while a
finder failure propagates as a `CliError` (the spec's `FinderError`). -/
inductive ScanError where
  | resolutionPanic
  | finderError (e : CliError)
deriving DecidableEq

/-- The immutable snapshot pair produced by the collection phase
(`ScanDetails` of the enclosing module): the compiled-file set and the
finder's findings. -/
structure ScanDetails where
  rs_files_used : List RsFilePath
  geiger_context : GeigerContext
deriving DecidableEq

/-- Embedding of `scan` (lines 134-155): builds the compile options, asks the external
resolver for the compiled-file set (unwrapping its result), then asks the
external finder in `ScanMode::Full`, and packs both into a `ScanDetails`. -/
def scan (features_args : FeaturesArgs) (config : Config)
    (resolve_rs_file_deps : CompileOptions → Except ResolveError (List RsFilePath))
    ( find_unsafe : ScanMode → Except CliError GeigerContext) :
    Except ScanError ScanDetails :=
  let compile_options := build_compile_options features_args config
  match resolve_rs_file_deps compile_options with
  | Except.error _ => Except.error ScanError.resolutionPanic
  | Except.ok rs_files_used =>
    match find_unsafe ScanMode.full with
    | Except.error e => Except.error (ScanError.finderError e)
    | Except.ok geiger_context =>
      Except.ok { rs_files_used := rs_files_used, geiger_context := geiger_context }

/-- Modelled from the spec: `unsafe_stats` (enclosing module, not under the
orchestration file) computes the unsafety summary of a package restricted to
"the subset of that package's files that are members of compiled-files in the
snapshot"; files never compiled "must not contribute to counts or function
lists". -/
def unsafe_stats (package_metrics : PackageMetrics)
    (rs_files_used : List RsFilePath) : UnsafeInfo :=
  let compiled := package_metrics.file_metrics.filter
    (fun fm => fm.1 ∈ rs_files_used)
  { declared_unsafe_functions :=
      (compiled.map (fun fm => fm.2.declared_unsafe_functions)).flatten
    contains_unsafe_functions :=
      (compiled.map (fun fm => fm.2.contains_unsafe_functions)).flatten
    unsafe_count := (compiled.map (fun fm => fm.2.unsafe_count)).sum }

/-- Modelled from the spec: `list_files_used_but_not_scanned` (enclosing
module, not under the orchestration file) computes "compiled-files minus the
set of file paths present in unsafe-findings". -/
def list_files_used_but_not_scanned (geiger_context : GeigerContext)
    (rs_files_used : List RsFilePath) : List RsFilePath :=
  rs_files_used.filter
    (fun f => ¬ f ∈ (geiger_context.map Prod.fst))

/-- One iteration of the aggregation loop of `scan_to_report` (lines 170-189):
a package whose metrics are absent is inserted into
`packages_without_metrics`; a package with metrics becomes a `ReportEntry`
keyed by its identifier in `packages`. -/
def scanToReportStep (rs_files_used : List RsFilePath)
    (report : SafetyReport) (x : Package × Option PackageMetrics) :
    SafetyReport :=
  match x.2 with
  | none =>
    { report with
      packages_without_metrics :=
        idsInsert report.packages_without_metrics x.1.id }
  | some package_metrics =>
    let entry : ReportEntry :=
      { package := x.1, unsafety := unsafe_stats package_metrics rs_files_used }
    { report with
      packages := packagesInsert report.packages entry.package.id entry }

/-- The report-building part of `scan_to_report` (lines 169-193): fold the
aggregation loop over the `package_metrics` enumeration starting from the
default report, then set `used_but_not_scanned_files`. -/
def aggregate (enumeration : List (Package × Option PackageMetrics))
    (rs_files_used : List RsFilePath) (geiger_context : GeigerContext) :
    SafetyReport :=
  let report := enumeration.foldl (scanToReportStep rs_files_used) {}
  { report with
    used_but_not_scanned_files :=
      list_files_used_but_not_scanned geiger_context rs_files_used }

/-- Output-format selector (`crate::format::print_config::OutputFormat`): the
dispatch in `scan_to_report` recognises exactly one value. -/
inductive OutputFormat where
  | json
deriving DecidableEq, Repr

/-- Modelled from the spec: the serializer (`serde_json::to_string` over
`cargo_geiger_serde::SafetyReport`, outside the orchestration file) renders
the report as a canonical textual document with the three top-level fields
`packages`, `packages_without_metrics` and `used_but_not_scanned_files`, both
set fields present even when empty. -/
def serializeString (s : String) : String :=
  "\"" ++ s ++ "\""

def serializePath (p : RsFilePath) : String :=
  serializeString
    (String.intercalate "/"
      (p.dir ++ (match p.fileName with | some f => [f] | none => [])))

def serializePackageId (p : PackageId) : String :=
  "\x7b\"name\":" ++ serializeString p.name ++ ",\"version\":"
    ++ serializeString p.version ++ "\x7d"

def serializeStringList (l : List String) : String :=
  "[" ++ String.intercalate "," (l.map serializeString) ++ "]"

def serializeEntry (e : ReportEntry) : String :=
  "\x7b\"id\":" ++ serializePackageId e.package.id
    ++ ",\"declared_unsafe_functions\":"
    ++ serializeStringList e.unsafety.declared_unsafe_functions
    ++ ",\"contains_unsafe_functions\":"
    ++ serializeStringList e.unsafety.contains_unsafe_functions
    ++ ",\"unsafe_count\":" ++ toString e.unsafety.unsafe_count ++ "\x7d"

def serdeJsonToString (report : SafetyReport) : String :=
  "\x7b\"packages\":["
    ++ String.intercalate ","
      (report.packages.map
        (fun kv => "[" ++ serializePackageId kv.1 ++ ","
          ++ serializeEntry kv.2 ++ "]"))
    ++ "],\"packages_without_metrics\":["
    ++ String.intercalate ","
      (report.packages_without_metrics.map serializePackageId)
    ++ "],\"used_but_not_scanned_files\":["
    ++ String.intercalate ","
      (report.used_but_not_scanned_files.map serializePath)
    ++ "]\x7d"

/-- Embedding of `log_unsafe_functions` (lines 68-94): derives the two suffixed file names
(the stem unwrap panic is modelled as `none`), then iterates the report's
`packages` mapping once, appending one line `"<package-name> <function-name>\n"`
per declared-list element to the `.declared` buffer and per contains-list
element to the `.contains` buffer; each buffer is written to a path that is the
bare derived file name.  The result is the list of (path, content) writes. -/
def log_unsafe_functions (log_path : RsFilePath) (report : SafetyReport) :
    Option (List (RsFilePath × String)) :=
  match suffixed_file_name log_path ".declared",
      suffixed_file_name log_path ".contains" with
  | some declared_name, some contains_name =>
    let contents := report.packages.foldl
      (fun (acc : String × String) kv =>
        ( kv.2.unsafety.declared_unsafe_functions.foldl
            (fun b n => b ++ (kv.1.name ++ " " ++ n ++ "\n")) acc.1,
          kv.2.unsafety.contains_unsafe_functions.foldl
            (fun b n => b ++ (kv.1.name ++ " " ++ n ++ "\n")) acc.2 ))
      ("", "")
    some [(⟨[], some declared_name⟩, contents.1),
          (⟨[], some contains_name⟩, contents.2)]
  | _, _ => none

/-- Observable steps of the dispatcher: completing a report, printing to the
standard output channel, writing an auxiliary file, delegating to the external
table renderer. -/
inductive Effect where
  | buildReport (r : SafetyReport)
  | print (s : String)
  | writeFile (p : RsFilePath) (content : String)
  | callTable
deriving DecidableEq

/-- Termination outcome of one invocation of the dispatcher. -/
inductive Outcome where
  | ok
  | errored (e : ScanError)
  | panicked
deriving DecidableEq

/-- Embedding of `scan_to_report` (lines 157-202): collect (propagating failure before any
report exists), aggregate, serialize according to the selector, print the
document followed by a newline, and, when a log path was supplied, write the
two auxiliary files.  The value is the outcome paired with the ordered list of
observable effects (auxiliary-file I/O failures are external; only the stem
unwrap panic is modelled). -/
def scan_to_report (output_format : OutputFormat) (features_args : FeaturesArgs)
    (config : Config)
    (resolve_rs_file_deps : CompileOptions → Except ResolveError (List RsFilePath))
    ( find_unsafe : ScanMode → Except CliError GeigerContext)
    (package_metrics : GeigerContext → List (Package × Option PackageMetrics))
    ( unsafe_fn_log : Option RsFilePath) : Outcome × List Effect :=
  match scan features_args config resolve_rs_file_deps find_unsafe with
  | Except.error e => (Outcome.errored e, [])
  | Except.ok details =>
    let report := aggregate (package_metrics details.geiger_context)
      details.rs_files_used details.geiger_context
    let s := match output_format with
      | OutputFormat.json => serdeJsonToString report
    let base := [Effect.buildReport report, Effect.print (s ++ "\n")]
    match unsafe_fn_log with
    | none => (Outcome.ok, base)
    | some log_path =>
      match log_unsafe_functions log_path report with
      | none => (Outcome.panicked, base)
      | some writes =>
        (Outcome.ok, base ++ writes.map (fun w => Effect.writeFile w.1 w.2))

/-- Embedding of `scan_unsafe` (lines 24-48): dispatch on the optional output-format
selector — present delegates to `scan_to_report`, absent delegates to the
external table renderer `scan_to_table` (whose own outcome is the parameter
`table_outcome`). -/
def scan_unsafe (output_format : Option OutputFormat)
    (features_args : FeaturesArgs) (config : Config)
    (resolve_rs_file_deps : CompileOptions → Except ResolveError (List RsFilePath))
    ( find_unsafe : ScanMode → Except CliError GeigerContext)
    (package_metrics : GeigerContext → List (Package × Option PackageMetrics))
    ( unsafe_fn_log : Option RsFilePath) (table_outcome : Outcome) :
    Outcome × List Effect :=
  match output_format with
  | some fmt =>
    scan_to_report fmt features_args config resolve_rs_file_deps find_unsafe
      package_metrics unsafe_fn_log
  | none => (table_outcome, [Effect.callTable])

/-! ## Lemmas about the aggregation containers -/

theorem mem_mapKeys_packagesInsert (m : List (PackageId × ReportEntry))
    (k : PackageId) (v : ReportEntry) (a : PackageId) :
    a ∈ mapKeys (packagesInsert m k v) ↔ a ∈ mapKeys m ∨ a = k := by
  unfold packagesInsert
  by_cases h : m.any (fun kv => kv.1 = k)
  · have hk : k ∈ mapKeys m := by
      rcases List.any_eq_true.mp h with ⟨kv, hkv, he⟩
      exact List.mem_map.mpr ⟨kv, hkv, of_decide_eq_true he⟩
    have hmap : mapKeys (m.map (fun kv => if kv.1 = k then (k, v) else kv))
        = mapKeys m := by
      unfold mapKeys
      rw [List.map_map]
      apply List.map_congr_left
      intro kv _
      by_cases hkv : kv.1 = k
      · simp [hkv]
      · simp [hkv]
    rw [if_pos h, hmap]
    constructor
    · exact Or.inl
    · intro hor
      rcases hor with ha | ha
      · exact ha
      · exact ha ▸ hk
  · rw [if_neg h]
    unfold mapKeys
    simp

theorem mem_idsInsert (s : List PackageId) (k a : PackageId) :
    a ∈ idsInsert s k ↔ a ∈ s ∨ a = k := by
  unfold idsInsert
  by_cases h : k ∈ s
  · rw [if_pos h]
    constructor
    · exact Or.inl
    · intro hor
      rcases hor with ha | ha
      · exact ha
      · exact ha ▸ h
  · rw [if_neg h]
    simp

theorem scanToReportStep_packages_none (rs_files_used : List RsFilePath)
    (r : SafetyReport) (x : Package × Option PackageMetrics) (hx : x.2 = none) :
    (scanToReportStep rs_files_used r x).packages = r.packages := by
  unfold scanToReportStep
  rw [hx]

theorem scanToReportStep_packages_some (rs_files_used : List RsFilePath)
    (r : SafetyReport) (x : Package × Option PackageMetrics)
    (pm : PackageMetrics) (hx : x.2 = some pm) :
    (scanToReportStep rs_files_used r x).packages
      = packagesInsert r.packages x.1.id
          { package := x.1, unsafety := unsafe_stats pm rs_files_used } := by
  unfold scanToReportStep
  rw [hx]

theorem scanToReportStep_pwm_none (rs_files_used : List RsFilePath)
    (r : SafetyReport) (x : Package × Option PackageMetrics) (hx : x.2 = none) :
    (scanToReportStep rs_files_used r x).packages_without_metrics
      = idsInsert r.packages_without_metrics x.1.id := by
  unfold scanToReportStep
  rw [hx]

theorem scanToReportStep_pwm_some (rs_files_used : List RsFilePath)
    (r : SafetyReport) (x : Package × Option PackageMetrics)
    (pm : PackageMetrics) (hx : x.2 = some pm) :
    (scanToReportStep rs_files_used r x).packages_without_metrics
      = r.packages_without_metrics := by
  unfold scanToReportStep
  rw [hx]

theorem mem_packages_foldl (rs_files_used : List RsFilePath)
    (l : List (Package × Option PackageMetrics)) :
    ∀ (r : SafetyReport) (a : PackageId),
      a ∈ mapKeys ((l.foldl (scanToReportStep rs_files_used) r).packages) ↔
        a ∈ mapKeys r.packages ∨ ∃ x, x ∈ l ∧ x.1.id = a ∧ x.2 ≠ none := by
  induction l with
  | nil => intro r a; simp
  | cons x l ih =>
    intro r a
    rw [List.foldl_cons, ih]
    rcases hx2 : x.2 with _ | pm
    · rw [scanToReportStep_packages_none rs_files_used r x hx2]
      simp only [List.mem_cons]
      constructor
      · intro hor
        rcases hor with ha | ⟨y, hy, hid, hne⟩
        · exact Or.inl ha
        · exact Or.inr ⟨y, Or.inr hy, hid, hne⟩
      · intro hor
        rcases hor with ha | ⟨y, hy, hid, hne⟩
        · exact Or.inl ha
        · rcases hy with hy | hy
          · exact absurd (hy ▸ hx2) hne
          · exact Or.inr ⟨y, hy, hid, hne⟩
    · rw [scanToReportStep_packages_some rs_files_used r x pm hx2,
        mem_mapKeys_packagesInsert]
      simp only [List.mem_cons]
      constructor
      · intro hor
        rcases hor with (ha | ha) | ⟨y, hy, hid, hne⟩
        · exact Or.inl ha
        · exact Or.inr ⟨x, Or.inl rfl, ha.symm, by rw [hx2]; exact Option.some_ne_none pm⟩
        · exact Or.inr ⟨y, Or.inr hy, hid, hne⟩
      · intro hor
        rcases hor with ha | ⟨y, hy, hid, hne⟩
        · exact Or.inl (Or.inl ha)
        · rcases hy with hy | hy
          · exact Or.inl (Or.inr (hid ▸ congrArg (fun z : Package × Option PackageMetrics => z.1.id) hy))
          · exact Or.inr ⟨y, hy, hid, hne⟩

theorem mem_pwm_foldl (rs_files_used : List RsFilePath)
    (l : List (Package × Option PackageMetrics)) :
    ∀ (r : SafetyReport) (a : PackageId),
      a ∈ (l.foldl (scanToReportStep rs_files_used) r).packages_without_metrics ↔
        a ∈ r.packages_without_metrics ∨ ∃ x, x ∈ l ∧ x.1.id = a ∧ x.2 = none := by
  induction l with
  | nil => intro r a; simp
  | cons x l ih =>
    intro r a
    rw [List.foldl_cons, ih]
    rcases hx2 : x.2 with _ | pm
    · rw [scanToReportStep_pwm_none rs_files_used r x hx2, mem_idsInsert]
      simp only [List.mem_cons]
      constructor
      · intro hor
        rcases hor with (ha | ha) | ⟨y, hy, hid, hno⟩
        · exact Or.inl ha
        · exact Or.inr ⟨x, Or.inl rfl, ha.symm, hx2⟩
        · exact Or.inr ⟨y, Or.inr hy, hid, hno⟩
      · intro hor
        rcases hor with ha | ⟨y, hy, hid, hno⟩
        · exact Or.inl (Or.inl ha)
        · rcases hy with hy | hy
          · exact Or.inl (Or.inr (hid ▸ congrArg (fun z : Package × Option PackageMetrics => z.1.id) hy))
          · exact Or.inr ⟨y, hy, hid, hno⟩
    · rw [scanToReportStep_pwm_some rs_files_used r x pm hx2]
      simp only [List.mem_cons]
      constructor
      · intro hor
        rcases hor with ha | ⟨y, hy, hid, hno⟩
        · exact Or.inl ha
        · exact Or.inr ⟨y, Or.inr hy, hid, hno⟩
      · intro hor
        rcases hor with ha | ⟨y, hy, hid, hno⟩
        · exact Or.inl ha
        · rcases hy with hy | hy
          · exact absurd (hy ▸ hx2) (by rw [hno]; exact fun he => Option.some_ne_none pm he.symm)
          · exact Or.inr ⟨y, hy, hid, hno⟩

theorem aggregate_packages_eq (enumeration : List (Package × Option PackageMetrics))
    (rs_files_used : List RsFilePath) (geiger_context : GeigerContext) :
    (aggregate enumeration rs_files_used geiger_context).packages
      = (enumeration.foldl (scanToReportStep rs_files_used) {}).packages := rfl

theorem aggregate_pwm_eq (enumeration : List (Package × Option PackageMetrics))
    (rs_files_used : List RsFilePath) (geiger_context : GeigerContext) :
    (aggregate enumeration rs_files_used geiger_context).packages_without_metrics
      = (enumeration.foldl (scanToReportStep rs_files_used) {}).packages_without_metrics := rfl

/-! ## Claim theorems: aggregation invariants -/

/-- C1: for every enumeration of the packages reachable from the root (assumed
total and non-repeating, i.e. with pairwise distinct identifiers), every
enumerated package identifier lands in `packages` exactly when its metrics are
present and in `packages_without_metrics` exactly when they are absent, and it
appears in exactly one of the two — never both, never neither. -/
theorem aggregate_partitions_enumeration
    (enumeration : List (Package × Option PackageMetrics))
    (rs_files_used : List RsFilePath) (geiger_context : GeigerContext)
    (hnodup : (enumeration.map (fun x => x.1.id)).Nodup) :
    ∀ x ∈ enumeration,
      (x.1.id ∈ mapKeys (aggregate enumeration rs_files_used geiger_context).packages
        ↔ x.2 ≠ none)
      ∧ (x.1.id ∈ (aggregate enumeration rs_files_used geiger_context).packages_without_metrics
        ↔ x.2 = none)
      ∧ Xor'
          (x.1.id ∈ mapKeys (aggregate enumeration rs_files_used geiger_context).packages)
          (x.1.id ∈ (aggregate enumeration rs_files_used geiger_context).packages_without_metrics) := by
  intro x hx
  have hinj := List.inj_on_of_nodup_map hnodup
  have hpack : x.1.id ∈ mapKeys (aggregate enumeration rs_files_used geiger_context).packages
      ↔ x.2 ≠ none := by
    rw [aggregate_packages_eq, mem_packages_foldl]
    constructor
    · intro hor
      rcases hor with ha | ⟨y, hy, hid, hne⟩
      · simp [mapKeys] at ha
      · have : y = x := hinj hy hx hid
        exact this ▸ hne
    · intro hne
      exact Or.inr ⟨x, hx, rfl, hne⟩
  have hpwm : x.1.id ∈ (aggregate enumeration rs_files_used geiger_context).packages_without_metrics
      ↔ x.2 = none := by
    rw [aggregate_pwm_eq, mem_pwm_foldl]
    constructor
    · intro hor
      rcases hor with ha | ⟨y, hy, hid, hno⟩
      · simp at ha
      · have : y = x := hinj hy hx hid
        exact this ▸ hno
    · intro hno
      exact Or.inr ⟨x, hx, rfl, hno⟩
  refine ⟨hpack, hpwm, ?_⟩
  rcases hx2 : x.2 with _ | pm
  · exact Or.inr ⟨hpwm.mpr hx2, fun hmem => (hpack.mp hmem) hx2⟩
  · refine Or.inl ⟨hpack.mpr ?_, fun hmem => ?_⟩
    · rw [hx2]; exact Option.some_ne_none pm
    · rw [hpwm.mp hmem] at hx2
      exact Option.noConfusion hx2

/-- Witness for C1 on a two-package graph: the package with metrics is reported
in exactly one of the two fields. -/
theorem aggregate_partitions_enumeration_witness :
    Xor'
      ((⟨"a-pkg", "1.0.0"⟩ : PackageId) ∈ mapKeys (aggregate
        [(⟨⟨"a-pkg", "1.0.0"⟩⟩, some ⟨[]⟩), (⟨⟨"b-pkg", "0.1.0"⟩⟩, none)]
        [] []).packages)
      ((⟨"a-pkg", "1.0.0"⟩ : PackageId) ∈ (aggregate
        [(⟨⟨"a-pkg", "1.0.0"⟩⟩, some ⟨[]⟩), (⟨⟨"b-pkg", "0.1.0"⟩⟩, none)]
        [] []).packages_without_metrics) :=
  (aggregate_partitions_enumeration
    [(⟨⟨"a-pkg", "1.0.0"⟩⟩, some ⟨[]⟩), (⟨⟨"b-pkg", "0.1.0"⟩⟩, none)]
    [] [] (by decide) (⟨⟨"a-pkg", "1.0.0"⟩⟩, some ⟨[]⟩) (by decide)).2.2

/-- C4: the report's `used_but_not_scanned_files` is exactly the compiled-file
set minus the files present in the findings; hence it is a subset of the
compiled files and disjoint from the files keyed in the findings. -/
theorem aggregate_orphan_files_spec
    (enumeration : List (Package × Option PackageMetrics))
    (rs_files_used : List RsFilePath) (geiger_context : GeigerContext) :
    (∀ f, f ∈ (aggregate enumeration rs_files_used geiger_context).used_but_not_scanned_files
        ↔ (f ∈ rs_files_used ∧ ¬ f ∈ geiger_context.map Prod.fst))
    ∧ (aggregate enumeration rs_files_used geiger_context).used_but_not_scanned_files
        ⊆ rs_files_used
    ∧ ∀ f ∈ (aggregate enumeration rs_files_used geiger_context).used_but_not_scanned_files,
        ¬ f ∈ geiger_context.map Prod.fst := by
  have hmem : ∀ f,
      f ∈ (aggregate enumeration rs_files_used geiger_context).used_but_not_scanned_files
        ↔ (f ∈ rs_files_used ∧ ¬ f ∈ geiger_context.map Prod.fst) := by
    intro f
    show f ∈ rs_files_used.filter _ ↔ _
    rw [List.mem_filter]
    simp [list_files_used_but_not_scanned]
  exact ⟨hmem, fun f hf => (hmem f |>.mp hf).1, fun f hf => (hmem f |>.mp hf).2⟩

/-- Witness for C4: a compiled file absent from the findings is an orphan, one
present in the findings is not. -/
theorem aggregate_orphan_files_spec_witness :
    (⟨["src"], some "lib.rs"⟩ : RsFilePath)
        ∈ (aggregate [] [⟨["src"], some "lib.rs"⟩] []).used_but_not_scanned_files
      ↔ ((⟨["src"], some "lib.rs"⟩ : RsFilePath) ∈ [(⟨["src"], some "lib.rs"⟩ : RsFilePath)]
          ∧ ¬ (⟨["src"], some "lib.rs"⟩ : RsFilePath) ∈ ([] : GeigerContext).map Prod.fst) :=
  (aggregate_orphan_files_spec [] [⟨["src"], some "lib.rs"⟩] []).1 ⟨["src"], some "lib.rs"⟩

/-! ## Claim theorems: file-name derivation -/

/-- C2 (evaluation at the spec's own test vector): deriving with suffix
`".declared"` from the path `"report.log"` yields `"report.declaredlog"` — the
extension is appended after the suffix without its separating dot, not
`"report.declared.log"` as the specification states. -/
theorem suffixed_file_name_report_log :
    suffixed_file_name ⟨[], some "report.log"⟩ ".declared"
        = some "report.declaredlog"
      ∧ suffixed_file_name ⟨[], some "report.log"⟩ ".declared"
        ≠ some "report.declared.log" := by
  constructor
  · decide
  · decide

/-- C9: for every path with a non-empty file-name component, the stem unwrap in
`suffixed_file_name` cannot panic — the derivation produces a name for both the
`".declared"` and the `".contains"` suffix. -/
theorem suffixed_file_name_no_panic (p : RsFilePath) (name : String)
    (hname : p.fileName = some name) (_hne : name ≠ "") :
    (suffixed_file_name p ".declared").isSome = true
      ∧ (suffixed_file_name p ".contains").isSome = true := by
  have hstem : rsFileStem p = some (rsSplitFileAtDot name).1 := by
    rw [rsFileStem, hname]
    rfl
  constructor <;> · rw [suffixed_file_name, hstem]; rfl

/-- Witness for C9 at the path `"report.log"`. -/
theorem suffixed_file_name_no_panic_witness :
    (suffixed_file_name ⟨["logs"], some "report.log"⟩ ".declared").isSome = true
      ∧ (suffixed_file_name ⟨["logs"], some "report.log"⟩ ".contains").isSome = true :=
  suffixed_file_name_no_panic ⟨["logs"], some "report.log"⟩ "report.log" rfl
    (by decide)

/-! ## Claim theorems: feature configuration -/

/-- C8: `build_compile_options` copies the feature list and both boolean flags
verbatim into the compile options, with no validation; in particular on
`(["a", "b"], all_features := true, no_default_features := false)` the result
carries exactly those values. -/
theorem build_compile_options_verbatim :
    (∀ (args : FeaturesArgs) (config : Config),
      (build_compile_options args config).features = args.features
      ∧ (build_compile_options args config).all_features = args.all_features
      ∧ (build_compile_options args config).no_default_features = args.no_default_features)
    ∧ (build_compile_options ⟨true, ["a", "b"], false⟩ ⟨⟩).features = ["a", "b"]
    ∧ (build_compile_options ⟨true, ["a", "b"], false⟩ ⟨⟩).all_features = true
    ∧ (build_compile_options ⟨true, ["a", "b"], false⟩ ⟨⟩).no_default_features = false :=
  ⟨fun _ _ => ⟨rfl, rfl, rfl⟩, rfl, rfl, rfl⟩

/-! ## Claim theorems: collection phase -/

/-- C5: the collection phase fails on resolver failure (the source unwraps, a
fatal end modelled as `resolutionPanic`, the spec's `ResolutionError`) and
fails with the finder's error when the finder fails; a snapshot exists exactly
when both sub-results were obtained (no partial snapshot, no retry); and the
finder's result is only ever consulted at `ScanMode.full`. -/
theorem scan_collection_failure_semantics (features_args : FeaturesArgs)
    (config : Config)
    (resolve_rs_file_deps : CompileOptions → Except ResolveError (List RsFilePath))
    ( find_unsafe : ScanMode → Except CliError GeigerContext) :
    (∀ e, resolve_rs_file_deps (build_compile_options features_args config)
          = Except.error e →
        scan features_args config resolve_rs_file_deps find_unsafe
          = Except.error ScanError.resolutionPanic)
    ∧ (∀ rs e, resolve_rs_file_deps (build_compile_options features_args config)
          = Except.ok rs →
        find_unsafe ScanMode.full = Except.error e →
        scan features_args config resolve_rs_file_deps find_unsafe
          = Except.error (ScanError.finderError e))
    ∧ (∀ rs_files_used geiger_context,
        scan features_args config resolve_rs_file_deps find_unsafe
            = Except.ok ⟨rs_files_used, geiger_context⟩
          ↔ (resolve_rs_file_deps (build_compile_options features_args config)
                = Except.ok rs_files_used
              ∧ find_unsafe ScanMode.full = Except.ok geiger_context))
    ∧ (∀ g : ScanMode → Except CliError GeigerContext,
        find_unsafe ScanMode.full = g ScanMode.full →
        scan features_args config resolve_rs_file_deps find_unsafe
          = scan features_args config resolve_rs_file_deps g) := by
  refine ⟨?_, ?_, ?_, ?_⟩
  · intro e he
    rw [scan]
    rw [he]
  · intro rs e hrs hf
    rw [scan]
    rw [hrs, hf]
  · intro rs_files_used geiger_context
    rw [scan]
    rcases hr : resolve_rs_file_deps (build_compile_options features_args config) with e | rs
    · simp
    · rcases hf : find_unsafe ScanMode.full with e | gc
      · simp
      · simp only [Except.ok.injEq, ScanDetails.mk.injEq]
  · intro g hg
    rw [scan, scan, hg]

/-- Witness for C5: with a failing resolver the collection phase ends with the
resolution failure. -/
theorem scan_collection_failure_semantics_witness :
    scan ⟨false, [], false⟩ ⟨⟩ (fun _ => Except.error "metadata unreadable")
        (fun _ => Except.ok [])
      = Except.error ScanError.resolutionPanic :=
  (scan_collection_failure_semantics ⟨false, [], false⟩ ⟨⟩
    (fun _ => Except.error "metadata unreadable") (fun _ => Except.ok [])).1
    "metadata unreadable" rfl

/-! ## Claim theorems: output dispatch -/

/-- C3: exactly one output mode runs per invocation.  With no selector the
dispatcher performs exactly the delegation to the table renderer (no report is
built, nothing is printed); with a selector it never calls the table renderer,
and when collection succeeds it builds the report and prints its serialization
terminated by a newline (on collection failure it stops before building
anything). -/
theorem scan_unsafe_output_modes (output_format : Option OutputFormat)
    (features_args : FeaturesArgs) (config : Config)
    (resolve_rs_file_deps : CompileOptions → Except ResolveError (List RsFilePath))
    ( find_unsafe : ScanMode → Except CliError GeigerContext)
    (package_metrics : GeigerContext → List (Package × Option PackageMetrics))
    ( unsafe_fn_log : Option RsFilePath) (table_outcome : Outcome) :
    (output_format = none →
      ( scan_unsafe output_format features_args config resolve_rs_file_deps
          find_unsafe package_metrics unsafe_fn_log table_outcome)
        = (table_outcome, [Effect.callTable]))
    ∧ (∀ fmt, output_format = some fmt →
        ¬ Effect.callTable ∈ ( scan_unsafe output_format features_args config
          resolve_rs_file_deps find_unsafe package_metrics unsafe_fn_log
          table_outcome).2)
    ∧ (∀ fmt, output_format = some fmt →
        ∀ details, scan features_args config resolve_rs_file_deps find_unsafe
            = Except.ok details →
          (( scan_unsafe output_format features_args config resolve_rs_file_deps
              find_unsafe package_metrics unsafe_fn_log table_outcome).2.take 2
            = [Effect.buildReport (aggregate (package_metrics details.geiger_context)
                  details.rs_files_used details.geiger_context),
               Effect.print (serdeJsonToString
                  (aggregate (package_metrics details.geiger_context)
                    details.rs_files_used details.geiger_context) ++ "\n")]))
    ∧ (∀ fmt, output_format = some fmt →
        ∀ e, scan features_args config resolve_rs_file_deps find_unsafe
            = Except.error e →
          ( scan_unsafe output_format features_args config resolve_rs_file_deps
              find_unsafe package_metrics unsafe_fn_log table_outcome).2 = []) := by
  refine ⟨?_, ?_, ?_, ?_⟩
  · intro hfmt
    rw [hfmt]
    rfl
  · intro fmt hfmt
    rw [hfmt]
    show ¬ Effect.callTable ∈ (scan_to_report fmt features_args config
      resolve_rs_file_deps find_unsafe package_metrics unsafe_fn_log).2
    rw [scan_to_report]
    rcases hs : scan features_args config resolve_rs_file_deps find_unsafe with e | details
    · simp
    · rcases hl : unsafe_fn_log with _ | log_path
      · simp
      · rcases hw : log_unsafe_functions log_path
            (aggregate (package_metrics details.geiger_context)
              details.rs_files_used details.geiger_context) with _ | writes
        · simp [hw]
        · simp [hw]
  · intro fmt hfmt details hs
    rw [hfmt]
    show (scan_to_report fmt features_args config resolve_rs_file_deps
        find_unsafe package_metrics unsafe_fn_log).2.take 2 = _
    rcases fmt with _
    rcases hl : unsafe_fn_log with _ | log_path
    · simp [scan_to_report, hs]
    · rcases hw : log_unsafe_functions log_path
          (aggregate (package_metrics details.geiger_context)
            details.rs_files_used details.geiger_context) with _ | writes
      · simp [scan_to_report, hs, hw]
      · simp [scan_to_report, hs, hw]
  · intro fmt hfmt e hs
    rw [hfmt]
    show (scan_to_report fmt features_args config resolve_rs_file_deps
        find_unsafe package_metrics unsafe_fn_log).2 = []
    rw [scan_to_report, hs]

/-- Witness for C3: with the JSON selector and a trivially succeeding pipeline
the table renderer is never called. -/
theorem scan_unsafe_output_modes_witness :
    ¬ Effect.callTable ∈ ( scan_unsafe (some OutputFormat.json) ⟨false, [], false⟩
      ⟨⟩ (fun _ => Except.ok []) (fun _ => Except.ok []) (fun _ => [])
      none Outcome.ok).2 :=
  (scan_unsafe_output_modes (some OutputFormat.json) ⟨false, [], false⟩ ⟨⟩
    (fun _ => Except.ok []) (fun _ => Except.ok []) (fun _ => [])
    none Outcome.ok).2.1 OutputFormat.json rfl

/-! ## Log-file contents -/

/-- Concatenation of a list of lines in order: the final content of a buffered
writer that appended each line once. -/
def concatLines (lines : List String) : String :=
  lines.foldl (fun b s => b ++ s) ""

/-- The log lines of one entry: one line `"<package-name> <function-name>\n"`
per function name. -/
def functionLines (package_name : String) (names : List String) : List String :=
  names.map (fun n => package_name ++ " " ++ n ++ "\n")

/-- All declared-list log lines of a packages mapping, in iteration order. -/
def declaredLinesOf (m : List (PackageId × ReportEntry)) : List String :=
  (m.map (fun kv => functionLines kv.1.name kv.2.unsafety.declared_unsafe_functions)).flatten

/-- All contains-list log lines of a packages mapping, in iteration order. -/
def containsLinesOf (m : List (PackageId × ReportEntry)) : List String :=
  (m.map (fun kv => functionLines kv.1.name kv.2.unsafety.contains_unsafe_functions)).flatten

theorem foldl_string_append (l : List String) :
    ∀ b : String, l.foldl (fun b s => b ++ s) b = b ++ concatLines l := by
  induction l with
  | nil => intro b; simp [concatLines]
  | cons s l ih =>
    intro b
    rw [List.foldl_cons, ih]
    have hcons : concatLines (s :: l) = s ++ concatLines l := by
      show (s :: l).foldl (fun b s => b ++ s) "" = _
      rw [List.foldl_cons, ih]
      simp
    rw [hcons, String.append_assoc]

theorem concatLines_cons (s : String) (l : List String) :
    concatLines (s :: l) = s ++ concatLines l := by
  show (s :: l).foldl (fun b s => b ++ s) "" = _
  rw [List.foldl_cons, foldl_string_append l]
  simp

theorem concatLines_append (l₁ l₂ : List String) :
    concatLines (l₁ ++ l₂) = concatLines l₁ ++ concatLines l₂ := by
  show (l₁ ++ l₂).foldl (fun b s => b ++ s) "" = _
  rw [List.foldl_append, foldl_string_append l₂]
  rfl

theorem foldl_write_lines (package_name : String) (names : List String) :
    ∀ b : String,
      names.foldl (fun b n => b ++ (package_name ++ " " ++ n ++ "\n")) b
        = b ++ concatLines (functionLines package_name names) := by
  induction names with
  | nil => intro b; simp [functionLines, concatLines]
  | cons n ns ih =>
    intro b
    rw [List.foldl_cons, ih]
    have hfl : functionLines package_name (n :: ns)
        = (package_name ++ " " ++ n ++ "\n") :: functionLines package_name ns := rfl
    rw [hfl, concatLines_cons, String.append_assoc]

theorem log_buffers_foldl (m : List (PackageId × ReportEntry)) :
    ∀ acc : String × String,
      m.foldl (fun (acc : String × String) kv =>
        ( kv.2.unsafety.declared_unsafe_functions.foldl
            (fun b n => b ++ (kv.1.name ++ " " ++ n ++ "\n")) acc.1,
          kv.2.unsafety.contains_unsafe_functions.foldl
            (fun b n => b ++ (kv.1.name ++ " " ++ n ++ "\n")) acc.2 )) acc
      = (acc.1 ++ concatLines (declaredLinesOf m),
         acc.2 ++ concatLines (containsLinesOf m)) := by
  induction m with
  | nil =>
    intro acc
    simp [declaredLinesOf, containsLinesOf, concatLines]
  | cons kv m ih =>
    intro acc
    rw [List.foldl_cons, ih]
    have hd : declaredLinesOf (kv :: m)
        = functionLines kv.1.name kv.2.unsafety.declared_unsafe_functions
          ++ declaredLinesOf m := by
      simp [declaredLinesOf]
    have hc : containsLinesOf (kv :: m)
        = functionLines kv.1.name kv.2.unsafety.contains_unsafe_functions
          ++ containsLinesOf m := by
      simp [containsLinesOf]
    rw [hd, hc, concatLines_append, concatLines_append,
      foldl_write_lines, foldl_write_lines, String.append_assoc,
      String.append_assoc]

/-- The content of `log_unsafe_functions` on a path with a file name: the two
derived bare paths carry exactly the concatenated declared-lines and
contains-lines of the report's entries. -/
theorem log_unsafe_functions_eq (log_path : RsFilePath) (report : SafetyReport)
    (declared_name contains_name : String)
    (hdn : suffixed_file_name log_path ".declared" = some declared_name)
    (hcn : suffixed_file_name log_path ".contains" = some contains_name) :
    log_unsafe_functions log_path report
      = some [(⟨[], some declared_name⟩, concatLines (declaredLinesOf report.packages)),
              (⟨[], some contains_name⟩, concatLines (containsLinesOf report.packages))] := by
  rw [log_unsafe_functions, hdn, hcn]
  rw [log_buffers_foldl report.packages ("", "")]
  simp

/-- C6: with the format selector present and a log path supplied, the
dispatcher emits, after the primary output, exactly two auxiliary files — one
holding one line `"<package-name> <function-name>"` plus terminator per pair of
every entry's declared list, the other the pairs of the contains lists — and
with the selector absent no auxiliary file is ever written. -/
theorem scan_to_report_log_files (features_args : FeaturesArgs) (config : Config)
    (resolve_rs_file_deps : CompileOptions → Except ResolveError (List RsFilePath))
    ( find_unsafe : ScanMode → Except CliError GeigerContext)
    (package_metrics : GeigerContext → List (Package × Option PackageMetrics))
    (table_outcome : Outcome) (log_path : RsFilePath) (details : ScanDetails)
    (hscan : scan features_args config resolve_rs_file_deps find_unsafe
      = Except.ok details)
    (name : String) (hname : log_path.fileName = some name)
    (report : SafetyReport)
    (hreport : report = aggregate (package_metrics details.geiger_context)
      details.rs_files_used details.geiger_context) :
    (( scan_unsafe (some OutputFormat.json) features_args config
        resolve_rs_file_deps find_unsafe package_metrics (some log_path)
        table_outcome).2
      = [Effect.buildReport report,
         Effect.print (serdeJsonToString report ++ "\n"),
         Effect.writeFile ⟨[], suffixed_file_name log_path ".declared"⟩
           (concatLines (declaredLinesOf report.packages)),
         Effect.writeFile ⟨[], suffixed_file_name log_path ".contains"⟩
           (concatLines (containsLinesOf report.packages))])
    ∧ (∀ p c, ¬ Effect.writeFile p c ∈ ( scan_unsafe none features_args config
        resolve_rs_file_deps find_unsafe package_metrics (some log_path)
        table_outcome).2) := by
  subst hreport
  have hstem : rsFileStem log_path = some (rsSplitFileAtDot name).1 := by
    rw [rsFileStem, hname]
    rfl
  have hdn : suffixed_file_name log_path ".declared"
      = some ((rsSplitFileAtDot name).1 ++ ".declared" ++ (rsExtension log_path).getD "") := by
    rw [suffixed_file_name, hstem]
  have hcn : suffixed_file_name log_path ".contains"
      = some ((rsSplitFileAtDot name).1 ++ ".contains" ++ (rsExtension log_path).getD "") := by
    rw [suffixed_file_name, hstem]
  constructor
  · have hlog := log_unsafe_functions_eq log_path
      (aggregate (package_metrics details.geiger_context)
        details.rs_files_used details.geiger_context) _ _ hdn hcn
    show (scan_to_report OutputFormat.json features_args config
        resolve_rs_file_deps find_unsafe package_metrics (some log_path)).2 = _
    rw [scan_to_report, hscan]
    simp only [hlog, hdn, hcn, List.map_cons, List.map_nil]
    rfl
  · intro p c
    show ¬ Effect.writeFile p c ∈ [Effect.callTable]
    simp

/-- Witness for C6 on a one-package report with one declared and one contains
function: the two derived files carry exactly the expected single lines. -/
theorem scan_to_report_log_files_witness :
    ( scan_unsafe (some OutputFormat.json) ⟨false, [], false⟩ ⟨⟩
        (fun _ => Except.ok [⟨["src"], some "lib.rs"⟩])
        (fun _ => Except.ok [(⟨["src"], some "lib.rs"⟩, ⟨["f"], ["g"], 1⟩)])
        (fun _ => [(⟨⟨"a-pkg", "1.0.0"⟩⟩,
          some ⟨[(⟨["src"], some "lib.rs"⟩, ⟨["f"], ["g"], 1⟩)]⟩)])
        (some ⟨[], some "report.log"⟩) Outcome.ok).2.drop 2
      = [Effect.writeFile ⟨[], some "report.declaredlog"⟩ "a-pkg f\n",
         Effect.writeFile ⟨[], some "report.containslog"⟩ "a-pkg g\n"] := by
  have h := scan_to_report_log_files ⟨false, [], false⟩ ⟨⟩
    (fun _ => Except.ok [⟨["src"], some "lib.rs"⟩])
    (fun _ => Except.ok [(⟨["src"], some "lib.rs"⟩, ⟨["f"], ["g"], 1⟩)])
    (fun _ => [(⟨⟨"a-pkg", "1.0.0"⟩⟩,
      some ⟨[(⟨["src"], some "lib.rs"⟩, ⟨["f"], ["g"], 1⟩)]⟩)])
    Outcome.ok ⟨[], some "report.log"⟩
    ⟨[⟨["src"], some "lib.rs"⟩], [(⟨["src"], some "lib.rs"⟩, ⟨["f"], ["g"], 1⟩)]⟩
    rfl "report.log" rfl
    (aggregate
      [(⟨⟨"a-pkg", "1.0.0"⟩⟩, some ⟨[(⟨["src"], some "lib.rs"⟩, ⟨["f"], ["g"], 1⟩)]⟩)]
      [⟨["src"], some "lib.rs"⟩]
      [(⟨["src"], some "lib.rs"⟩, ⟨["f"], ["g"], 1⟩)]) rfl
  rw [h.1]
  decide

/-! ## Claim theorems: determinism -/

/-- The aggregate-then-serialize pipeline of `scan_to_report`. -/
def report_pipeline (enumeration : List (Package × Option PackageMetrics))
    (rs_files_used : List RsFilePath) (geiger_context : GeigerContext) :
    String :=
  serdeJsonToString (aggregate enumeration rs_files_used geiger_context)

/-- C7: aggregation and serialization are deterministic — two runs of the
pipeline on an identical (enumeration, compiled files, findings) triple
produce byte-identical serialized documents. -/
theorem report_pipeline_deterministic
    (e₁ e₂ : List (Package × Option PackageMetrics))
    (r₁ r₂ : List RsFilePath) (g₁ g₂ : GeigerContext)
    (he : e₁ = e₂) (hr : r₁ = r₂) (hg : g₁ = g₂) :
    report_pipeline e₁ r₁ g₁ = report_pipeline e₂ r₂ g₂ := by
  rw [he, hr, hg]

/-- Witness for C7 on a concrete one-package run. -/
theorem report_pipeline_deterministic_witness :
    report_pipeline [(⟨⟨"a-pkg", "1.0.0"⟩⟩, none)] [] []
      = report_pipeline [(⟨⟨"a-pkg", "1.0.0"⟩⟩, none)] [] [] :=
  report_pipeline_deterministic [(⟨⟨"a-pkg", "1.0.0"⟩⟩, none)]
    [(⟨⟨"a-pkg", "1.0.0"⟩⟩, none)] [] [] [] [] rfl rfl rfl

/-! ## Claim theorems: auxiliary file placement -/

/-- C10: the auxiliary log files are created at bare derived file names — every
write target of `log_unsafe_functions` has an empty directory component and
carries one of the two derived names, and the whole computation ignores the
directory part of the supplied log path. -/
theorem log_files_bare_names (log_path : RsFilePath) (report : SafetyReport)
    (writes : List (RsFilePath × String))
    (h : log_unsafe_functions log_path report = some writes) :
    (∀ w ∈ writes, w.1.dir = [])
    ∧ (∀ w ∈ writes, w.1.fileName = suffixed_file_name log_path ".declared"
        ∨ w.1.fileName = suffixed_file_name log_path ".contains")
    ∧ log_unsafe_functions log_path report
        = log_unsafe_functions ⟨[], log_path.fileName⟩ report := by
  rcases hd : suffixed_file_name log_path ".declared" with _ | dn
  · rw [log_unsafe_functions, hd] at h
    exact absurd h (by simp)
  rcases hc : suffixed_file_name log_path ".contains" with _ | cn
  · rw [log_unsafe_functions, hd, hc] at h
    exact absurd h (by simp)
  rw [log_unsafe_functions, hd, hc] at h
  simp only [Option.some_inj] at h
  refine ⟨?_, ?_, rfl⟩
  · intro w hw
    rw [← h] at hw
    simp only [List.mem_cons, List.not_mem_nil, or_false] at hw
    rcases hw with hw | hw
    · rw [hw]
    · rw [hw]
  · intro w hw
    rw [← h] at hw
    simp only [List.mem_cons, List.not_mem_nil, or_false] at hw
    rcases hw with hw | hw
    · rw [hw]
      exact Or.inl rfl
    · rw [hw]
      exact Or.inr rfl

/-- Witness for C10: with a log path inside a directory, the derived declared
file is written at a bare name in the current directory. -/
theorem log_files_bare_names_witness :
    ((⟨[], some "report.declaredlog"⟩ : RsFilePath), "").1.dir
      = ([] : List String) :=
  (log_files_bare_names ⟨["var", "log"], some "report.log"⟩ {}
    [(⟨[], some "report.declaredlog"⟩, ""), (⟨[], some "report.containslog"⟩, "")]
    (by decide)).1 (⟨[], some "report.declaredlog"⟩, "") (by decide)
